import Mathlib

/-!
Verification of the `standard` beacon-committees service
(`services/beaconcommittees/standard/service.go` of `henridf/chaind`).

The file embeds the service's startup/catch-up logic as executable Lean
functions and proves the spec's claims about them.  Epochs are `phase0.Epoch`
values, i.e. unsigned 64-bit integers; every quantity the claims touch stays
far below `2 ^ 64`, so epochs are embedded as `Nat` with exact arithmetic.
-/

namespace Chaind.BeaconCommittees

/-- The service's `metadata` struct: the Progress Metadata record, holding the
last fully processed epoch (`LatestEpoch`). -/
structure Metadata where
  LatestEpoch : Nat
deriving DecidableEq

/-- Modelled from the spec: the durable state of the persistence engine,
together with run observations used to state the claims.

* `latestEpoch` is the stored Progress Metadata (`setMetadata` writes it
  inside a transaction; it becomes durable only when that transaction
  commits).
* `txLog` records, per successfully committed transaction in order, the list
  of epochs whose committee data that transaction wrote
  (`updateBeaconCommitteesForEpoch` writes inside the transaction; an aborted
  transaction leaves no durable trace).
* `attempted` records the epochs for which a catch-up loop iteration was
  started, in order.
* `txBegun` counts successfully opened transactions (`chainDB.BeginTx`).

`getMetadata`, `setMetadata`, `updateBeaconCommitteesForEpoch` and the
transaction calls live outside the shown file; their boundary contract is
taken from the spec: writes become durable exactly at a successful commit,
and an aborted or cancelled transaction leaves the durable state unchanged. -/
structure DBState where
  latestEpoch : Nat
  txLog : List (List Nat)
  attempted : List Nat
  txBegun : Nat
deriving DecidableEq

/-- Failure oracle for the fallible calls inside one iteration of the
`Service.catchup` loop: whether `chainDB.BeginTx`,
`updateBeaconCommitteesForEpoch`, `setMetadata` and `chainDB.CommitTx`
succeed at a given epoch. -/
structure Oracle where
  beginOk : Nat → Bool
  updateOk : Nat → Bool
  setOk : Nat → Bool
  commitOk : Nat → Bool

/-- All four fallible steps of the loop body succeed at `epoch`. -/
def stepOk (o : Oracle) (epoch : Nat) : Bool :=
  o.beginOk epoch && o.updateOk epoch && o.setOk epoch && o.commitOk epoch

/-- One iteration of the `for` loop body of `Service.catchup`
(service.go lines 109-134).  Returns whether the loop continues, and the
durable state afterwards:

* `BeginTx` failure: `return` before any transaction exists;
* `updateBeaconCommitteesForEpoch` / `setMetadata` / `CommitTx` failure:
  `cancel()` aborts the transaction, so the durable state is unchanged
  (the transaction was opened, hence `txBegun` still counts it);
* full success: the commit makes the epoch's committee data and the
  metadata update `md.LatestEpoch = epoch` durable in one transaction. -/
def runIter (o : Oracle) (epoch : Nat) (db : DBState) : Bool × DBState :=
  let db1 := { db with attempted := db.attempted ++ [epoch] }
  if o.beginOk epoch then
    let db2 := { db1 with txBegun := db1.txBegun + 1 }
    if o.updateOk epoch then
      if o.setOk epoch then
        if o.commitOk epoch then
          (true, { db2 with latestEpoch := epoch, txLog := db2.txLog ++ [[epoch]] })
        else (false, db2)
      else (false, db2)
    else (false, db2)
  else (false, db1)

/-- At most `fuel` iterations of the `Service.catchup` loop starting at
`epoch`, guarded each time by `epoch <= current`.  With enough fuel this is
the whole loop (`catchupFrom`); with smaller fuel it is the state after a
prefix of the loop.  `s.chainTime.CurrentEpoch()` is re-read by the Go loop
condition each iteration; the claims are about a run against a fixed chain
state, so it is embedded as the constant `current`. -/
def catchupSteps (o : Oracle) (current : Nat) : Nat → Nat → DBState → DBState
  | 0, _, db => db
  | fuel + 1, epoch, db =>
    if epoch ≤ current then
      match runIter o epoch db with
      | (true, db') => catchupSteps o current fuel (epoch + 1) db'
      | (false, db') => db'
    else db

/-- The function `Service.catchup` run from `epoch` (the `md.LatestEpoch` it is given):
the loop `for epoch := md.LatestEpoch; epoch <= current; epoch++`.  The fuel
`current + 1 - epoch` is exactly the maximal trip count, so this is the full
loop. -/
def catchupFrom (o : Oracle) (current epoch : Nat) (db : DBState) : DBState :=
  catchupSteps o current (current + 1 - epoch) epoch db

/-- Modelled from the spec: `getMetadata` reads the stored Progress Metadata
(its definition is in a sibling file of the service, not shown). -/
def getMetadata (db : DBState) : Metadata :=
  ⟨db.latestEpoch⟩

/-- The resume-point computation of `Service.updateAfterRestart`
(service.go lines 80-86), mutating the metadata read at startup:
an explicit `startEpoch >= 0` overrides (`phase0.Epoch(startEpoch)` on a
non-negative `int64` is value-preserving); otherwise a positive
`LatestEpoch` is incremented; otherwise it is left alone. -/
def resumeMetadata (startEpoch : Int) (md : Metadata) : Metadata :=
  if 0 ≤ startEpoch then { md with LatestEpoch := startEpoch.toNat }
  else if 0 < md.LatestEpoch then { md with LatestEpoch := md.LatestEpoch + 1 }
  else md

/-- The Resume Point rule exactly as the spec words it (for the refinement
claim): explicit override if configured, else `latestEpoch + 1` if
`latestEpoch > 0`, else `latestEpoch`. -/
def resumePointSpec (startEpoch : Int) (latestEpoch : Nat) : Nat :=
  if 0 ≤ startEpoch then startEpoch.toNat
  else if 0 < latestEpoch then latestEpoch + 1
  else latestEpoch

/-- Modelled from the spec: a weighted semaphore
(`golang.org/x/sync/semaphore.Weighted`), used with weight 1 as the
Single-Flight Guard.  `size` is the capacity, `cur` the acquired weight. -/
structure Weighted where
  size : Nat
  cur : Nat
deriving DecidableEq

/-- Modelled from the spec: `TryAcquire(1)` acquires without blocking,
returning whether it succeeded; on failure the semaphore is unchanged. -/
def tryAcquire1 (s : Weighted) : Bool × Weighted :=
  if s.cur + 1 ≤ s.size then (true, { s with cur := s.cur + 1 })
  else (false, s)

/-- Modelled from the spec: `Release(1)`. -/
def release1 (s : Weighted) : Weighted :=
  { s with cur := s.cur - 1 }

/-- The semaphore `semaphore.NewWeighted(1)`, the `activitySem` created by `New`
(service.go line 65). -/
def newWeighted1 : Weighted :=
  ⟨1, 0⟩

/-- How one execution of `Service.updateAfterRestart` ended. -/
inductive Outcome where
  | fatalMetadata
  | catchupDeferred
  | fatalSubscribe
  | subscribed
deriving DecidableEq

/-- Result of one execution of `Service.updateAfterRestart`: how it ended,
the durable state, and the semaphore afterwards. -/
structure RunResult where
  outcome : Outcome
  db : DBState
  sem : Weighted
deriving DecidableEq

/-- The function `Service.updateAfterRestart` (service.go lines 74-105).
`mdOk` is whether the initial `getMetadata` call succeeds (`log.Fatal`
otherwise, before any resume point is computed); `subOk` is whether the
`Events` subscription succeeds (`log.Fatal` otherwise).  On a denied
`TryAcquire` the function logs and returns ("catchup deferred") without
running catch-up and without subscribing.  After an admitted catch-up run
the semaphore is released before the subscription is attempted, on every
outcome of the run (failures inside `catchup` are swallowed there). -/
def updateAfterRestart (mdOk subOk : Bool) (o : Oracle) (current : Nat)
    (startEpoch : Int) (db : DBState) (sem : Weighted) : RunResult :=
  if mdOk then
    let md := resumeMetadata startEpoch (getMetadata db)
    let acq := tryAcquire1 sem
    if acq.1 then
      let db2 := catchupFrom o current md.LatestEpoch db
      let sem2 := release1 acq.2
      if subOk then ⟨Outcome.subscribed, db2, sem2⟩
      else ⟨Outcome.fatalSubscribe, db2, sem2⟩
    else ⟨Outcome.catchupDeferred, db, acq.2⟩
  else ⟨Outcome.fatalMetadata, db, sem⟩

/-- The contiguous epoch list `[e, e + 1, ..., e + n - 1]`. -/
def epochRange : Nat → Nat → List Nat
  | _, 0 => []
  | e, n + 1 => e :: epochRange (e + 1) n

/-- The transactions committed between two database states: the suffix of
the transaction log added after `dbBefore`. -/
def newTxs (dbBefore dbAfter : DBState) : List (List Nat) :=
  dbAfter.txLog.drop dbBefore.txLog.length

/-- An oracle under which every step at every epoch succeeds. -/
def oracleAllOk : Oracle :=
  ⟨fun _ => true, fun _ => true, fun _ => true, fun _ => true⟩

/-- An oracle under which the committee write fails at epoch 6 and
everything else succeeds. -/
def oracleFailUpdate6 : Oracle :=
  { oracleAllOk with updateOk := fun e => decide (e ≠ 6) }

/-- A fresh durable state: nothing processed, nothing logged. -/
def db0 : DBState :=
  ⟨0, [], [], 0⟩

/-- A free weight-1 semaphore. -/
def sem10 : Weighted :=
  ⟨1, 0⟩

/-- A weight-1 semaphore whose permit is held. -/
def sem11 : Weighted :=
  ⟨1, 1⟩

/-- A fully successful loop iteration opens one transaction and commits
the epoch's committee data together with the metadata update. -/
theorem runIter_ok (o : Oracle) (k : Nat) (db : DBState) (h : stepOk o k = true) :
    runIter o k db =
      (true, { db with attempted := db.attempted ++ [k], txBegun := db.txBegun + 1, latestEpoch := k, txLog := db.txLog ++ [[k]] }) := by
  simp only [stepOk, Bool.and_eq_true] at h
  obtain ⟨⟨⟨h1, h2⟩, h3⟩, h4⟩ := h
  simp [runIter, h1, h2, h3, h4]

/-- A failing loop iteration leaves the durable metadata and transaction log
unchanged; the transaction, if it was opened at all, is aborted. -/
theorem runIter_fail (o : Oracle) (k : Nat) (db : DBState) (h : stepOk o k = false) :
    runIter o k db =
      (false, { db with attempted := db.attempted ++ [k], txBegun := db.txBegun + (if o.beginOk k then 1 else 0) }) := by
  cases hb : o.beginOk k <;> cases hu : o.updateOk k <;> cases hs : o.setOk k <;>
    cases hc : o.commitOk k <;> simp_all [runIter, stepOk]

/-- A loop iteration whose transaction opens but whose write, metadata
update or commit then fails aborts that transaction. -/
theorem runIter_fail_after_begin (o : Oracle) (k : Nat) (db : DBState)
    (hb : o.beginOk k = true)
    (h : (o.updateOk k && o.setOk k && o.commitOk k) = false) :
    runIter o k db =
      (false, { db with attempted := db.attempted ++ [k], txBegun := db.txBegun + 1 }) := by
  cases hu : o.updateOk k <;> cases hs : o.setOk k <;> cases hc : o.commitOk k <;> simp_all [runIter]

/-- Membership in a contiguous epoch list. -/
theorem mem_epochRange (x : Nat) :
    ∀ (e n : Nat), x ∈ epochRange e n ↔ e ≤ x ∧ x < e + n := by
  intro e n
  induction n generalizing e with
  | zero => simp [epochRange]
  | succ m ih =>
    simp only [epochRange, List.mem_cons, ih (e + 1)]
    omega

/-- Length of a contiguous epoch list. -/
theorem epochRange_length : ∀ (e n : Nat), (epochRange e n).length = n := by
  intro e n
  induction n generalizing e with
  | zero => rfl
  | succ m ih => simp [epochRange, ih (e + 1)]

/-- A contiguous epoch list is strictly ascending. -/
theorem epochRange_sorted : ∀ (e n : Nat), List.Sorted (fun a b => a < b) (epochRange e n) := by
  intro e n
  induction n generalizing e with
  | zero => exact List.sorted_nil
  | succ m ih =>
    refine List.sorted_cons.mpr ⟨?_, ih (e + 1)⟩
    intro b hb
    have := (mem_epochRange b (e + 1) m).mp hb
    omega

/-- When the resume epoch is already past the chain's current epoch the
catch-up loop runs zero iterations and changes nothing. -/
theorem catchup_noop (o : Oracle) (current epoch : Nat) (db : DBState)
    (h : current < epoch) :
    catchupFrom o current epoch db = db := by
  unfold catchupFrom
  have hz : current + 1 - epoch = 0 := by omega
  rw [hz]
  rfl

/-- Master lemma for fully successful runs: with exact fuel, the loop
processes the whole contiguous range, committing one singleton transaction
per epoch and leaving the metadata at the last processed epoch. -/
theorem catchupSteps_all_ok (o : Oracle) (current : Nat) :
    ∀ (n epoch : Nat) (db : DBState), n = current + 1 - epoch →
    (∀ k, epoch ≤ k → k ≤ current → stepOk o k = true) →
    catchupSteps o current n epoch db =
      { latestEpoch := if epoch ≤ current then current else db.latestEpoch, txLog := db.txLog ++ (epochRange epoch n).map (fun k => [k]), attempted := db.attempted ++ epochRange epoch n, txBegun := db.txBegun + n } := by
  intro n
  induction n with
  | zero =>
    intro epoch db hn _
    have hgt : ¬ epoch ≤ current := by omega
    simp [catchupSteps, epochRange, hgt]
  | succ m ih =>
    intro epoch db hn hok
    have hec : epoch ≤ current := by omega
    have hstep : stepOk o epoch = true := hok epoch le_rfl hec
    simp only [catchupSteps, hec, if_true, runIter_ok o epoch db hstep]
    rw [ih (epoch + 1) _ (by omega) (fun k hk1 hk2 => hok k (by omega) hk2)]
    have hrange : epochRange epoch (m + 1) = epoch :: epochRange (epoch + 1) m := rfl
    rw [hrange]
    simp only [List.map_cons, DBState.mk.injEq, List.append_assoc, List.singleton_append, List.cons_append]
    refine ⟨?_, ⟨rfl, ⟨rfl, by omega⟩⟩⟩
    by_cases h2 : epoch + 1 ≤ current
    · simp [h2, hec]
    · have : epoch = current := by omega
      simp [h2, hec, this]

/-- Master lemma for a run that fails at epoch `K`: every earlier epoch of
the range is committed in its own transaction, epoch `K`'s transaction is
opened and aborted, the metadata stays at the last committed epoch, and no
later epoch is attempted. -/
theorem catchupSteps_fail_at (o : Oracle) (current K : Nat)
    (hb : o.beginOk K = true)
    (hf : (o.updateOk K && o.setOk K && o.commitOk K) = false)
    (hKc : K ≤ current) :
    ∀ (n epoch : Nat) (db : DBState), n = current + 1 - epoch → epoch ≤ K →
    (∀ k, epoch ≤ k → k < K → stepOk o k = true) →
    catchupSteps o current n epoch db =
      { latestEpoch := if epoch = K then db.latestEpoch else K - 1, txLog := db.txLog ++ (epochRange epoch (K - epoch)).map (fun k => [k]), attempted := db.attempted ++ epochRange epoch (K + 1 - epoch), txBegun := db.txBegun + (K - epoch) + 1 } := by
  intro n
  induction n with
  | zero => intro epoch db hn heK hok; omega
  | succ m ih =>
    intro epoch db hn heK hok
    have hec : epoch ≤ current := by omega
    by_cases heqK : epoch = K
    · subst heqK
      simp only [catchupSteps, hec, if_true, runIter_fail_after_begin o epoch db hb hf]
      have h0 : epoch - epoch = 0 := by omega
      have h1 : epoch + 1 - epoch = 1 := by omega
      rw [h0, h1]
      simp [epochRange, DBState.mk.injEq]
    · have hlt : epoch < K := by omega
      have hstep : stepOk o epoch = true := hok epoch le_rfl hlt
      simp only [catchupSteps, hec, if_true, runIter_ok o epoch db hstep]
      rw [ih (epoch + 1) _ (by omega) (by omega) (fun k hk1 hk2 => hok k (by omega) hk2)]
      have h2 : K - epoch = (K - (epoch + 1)) + 1 := by omega
      have h3 : K + 1 - epoch = (K + 1 - (epoch + 1)) + 1 := by omega
      rw [h2, h3]
      have hr2 : epochRange epoch ((K - (epoch + 1)) + 1) = epoch :: epochRange (epoch + 1) (K - (epoch + 1)) := rfl
      have hr3 : epochRange epoch ((K + 1 - (epoch + 1)) + 1) = epoch :: epochRange (epoch + 1) (K + 1 - (epoch + 1)) := rfl
      rw [hr2, hr3]
      simp only [List.map_cons, DBState.mk.injEq, List.append_assoc, List.singleton_append, List.cons_append]
      refine ⟨?_, ⟨rfl, ⟨rfl, by omega⟩⟩⟩
      by_cases h4 : epoch + 1 = K
      · simp [h4, heqK]
        omega
      · simp [h4, heqK]

/-- Master lemma for prefixes of the loop under an arbitrary failure
oracle: after any number of iterations the transaction log has grown by one
singleton transaction per consecutive epoch starting at the resume point,
and the stored metadata is the last such epoch (or unchanged when nothing
was committed). -/
theorem catchupSteps_prefix_spec (o : Oracle) (current : Nat) :
    ∀ (n epoch : Nat) (db : DBState), ∃ m,
      (catchupSteps o current n epoch db).txLog = db.txLog ++ (epochRange epoch m).map (fun k => [k]) ∧
      ((m = 0 ∧ (catchupSteps o current n epoch db).latestEpoch = db.latestEpoch) ∨
       (0 < m ∧ (catchupSteps o current n epoch db).latestEpoch = epoch + m - 1)) := by
  intro n
  induction n with
  | zero =>
    intro epoch db
    exact ⟨0, by simp [catchupSteps, epochRange], Or.inl ⟨rfl, rfl⟩⟩
  | succ m' ih =>
    intro epoch db
    by_cases hec : epoch ≤ current
    · cases hstep : stepOk o epoch with
      | false =>
        refine ⟨0, ?_, Or.inl ⟨rfl, ?_⟩⟩ <;>
          simp [catchupSteps, hec, runIter_fail o epoch db hstep, epochRange]
      | true =>
        obtain ⟨mm, h1, h2⟩ := ih (epoch + 1) { db with attempted := db.attempted ++ [epoch], txBegun := db.txBegun + 1, latestEpoch := epoch, txLog := db.txLog ++ [[epoch]] }
        refine ⟨mm + 1, ?_, ?_⟩
        · simp only [catchupSteps, hec, if_true, runIter_ok o epoch db hstep]
          rw [h1]
          have hr : epochRange epoch (mm + 1) = epoch :: epochRange (epoch + 1) mm := rfl
          rw [hr]
          simp [List.append_assoc]
        · simp only [catchupSteps, hec, if_true, runIter_ok o epoch db hstep]
          rcases h2 with ⟨hm0, hlat⟩ | ⟨hmpos, hlat⟩
          · refine Or.inr ⟨by omega, ?_⟩
            simp only at hlat
            omega
          · refine Or.inr ⟨by omega, ?_⟩
            omega
    · exact ⟨0, by simp [catchupSteps, hec, epochRange], Or.inl ⟨rfl, by simp [catchupSteps, hec]⟩⟩

/-- Flattening singleton transactions recovers the epoch list. -/
theorem flatten_map_singleton : ∀ (l : List Nat), (l.map (fun k => [k])).flatten = l := by
  intro l
  induction l with
  | nil => rfl
  | cons a t ih => simp [ih]

/-- When the transaction log grows by a suffix, `newTxs` is that suffix. -/
theorem newTxs_eq (dbBefore dbAfter : DBState) (L : List (List Nat))
    (h : dbAfter.txLog = dbBefore.txLog ++ L) :
    newTxs dbBefore dbAfter = L := by
  unfold newTxs
  rw [h]
  exact List.drop_left _ _

/-- Nothing is committed between a state and itself. -/
theorem newTxs_self (db : DBState) : newTxs db db = [] := by
  unfold newTxs
  exact List.drop_length _

/-- A denied `TryAcquire(1)` leaves the semaphore unchanged. -/
theorem tryAcquire1_denied (s : Weighted) (h : (tryAcquire1 s).1 = false) :
    (tryAcquire1 s).2 = s := by
  unfold tryAcquire1 at h ⊢
  by_cases hc : s.cur + 1 ≤ s.size <;> simp [hc] at h ⊢

/-- Releasing right after a successful acquisition restores the semaphore. -/
theorem release_after_acquire (s : Weighted) (h : (tryAcquire1 s).1 = true) :
    release1 (tryAcquire1 s).2 = s := by
  unfold tryAcquire1 at h ⊢
  by_cases hc : s.cur + 1 ≤ s.size
  · simp [hc, release1]
  · simp [hc] at h

/-- The semaphore is restored by `updateAfterRestart` on every path: it is
untouched on a failed metadata read or a denied acquisition, and after an
admitted catch-up run the permit is always released (before the
subscription step, hence on every outcome of the run). -/
theorem updateAfterRestart_sem (mdOk subOk : Bool) (o : Oracle) (current : Nat)
    (s : Int) (db : DBState) (sem : Weighted) :
    (updateAfterRestart mdOk subOk o current s db sem).sem = sem := by
  cases mdOk with
  | false => rfl
  | true =>
    by_cases hacq : (tryAcquire1 sem).1 = true
    · cases subOk <;>
        simp [updateAfterRestart, hacq, release_after_acquire sem hacq]
    · simp only [Bool.not_eq_true] at hacq
      simp [updateAfterRestart, hacq, tryAcquire1_denied sem hacq]

/-- An admitted `updateAfterRestart` run: catch-up runs from the computed
resume point, the permit is released, and the outcome is decided by the
subscription step alone. -/
theorem updateAfterRestart_run (subOk : Bool) (o : Oracle) (current : Nat) (s : Int)
    (db : DBState) (sem : Weighted) (hacq : (tryAcquire1 sem).1 = true) :
    updateAfterRestart true subOk o current s db sem =
      ⟨if subOk then Outcome.subscribed else Outcome.fatalSubscribe, catchupFrom o current (resumeMetadata s (getMetadata db)).LatestEpoch db, release1 (tryAcquire1 sem).2⟩ := by
  cases subOk <;> simp [updateAfterRestart, hacq]

/-- Wrapper of the success master lemma for the whole loop. -/
theorem catchupFrom_all_ok (o : Oracle) (current epoch : Nat) (db : DBState)
    (hok : ∀ k, epoch ≤ k → k ≤ current → stepOk o k = true) :
    catchupFrom o current epoch db =
      { latestEpoch := if epoch ≤ current then current else db.latestEpoch, txLog := db.txLog ++ (epochRange epoch (current + 1 - epoch)).map (fun k => [k]), attempted := db.attempted ++ epochRange epoch (current + 1 - epoch), txBegun := db.txBegun + (current + 1 - epoch) } :=
  catchupSteps_all_ok o current (current + 1 - epoch) epoch db rfl hok

/-- The resume computation of the service agrees with the spec's rule. -/
theorem resumeMetadata_eq_spec (s : Int) (md : Metadata) :
    (resumeMetadata s md).LatestEpoch = resumePointSpec s md.LatestEpoch := by
  unfold resumeMetadata resumePointSpec
  by_cases h1 : 0 ≤ s <;> by_cases h2 : 0 < md.LatestEpoch <;> simp [h1, h2]

/-- C2: the resume point computed at startup is the explicit `startEpoch`
override when `startEpoch >= 0`; otherwise `latestEpoch + 1` when the stored
`latestEpoch > 0`; otherwise `latestEpoch` itself.  In particular stored 5
with no override resumes at 6, stored 0 with no override resumes at 0, and
an override of 10 resumes at 10 regardless of stored state. -/
theorem resume_point_rule :
    (∀ (s : Int) (md : Metadata), (resumeMetadata s md).LatestEpoch = resumePointSpec s md.LatestEpoch)
    ∧ (resumeMetadata (-1) ⟨5⟩).LatestEpoch = 6
    ∧ (resumeMetadata (-1) ⟨0⟩).LatestEpoch = 0
    ∧ (∀ (md : Metadata), (resumeMetadata 10 md).LatestEpoch = 10) := by
  refine ⟨resumeMetadata_eq_spec, by decide, by decide, ?_⟩
  intro md
  simp [resumeMetadata]

/-- C7: if the resume epoch is beyond the chain's current epoch, the
catch-up loop performs zero iterations: the state (transaction counts,
transaction log, metadata, attempts) is unchanged and the run returns. -/
theorem catchup_empty_range_noop (o : Oracle) (current epoch : Nat) (db : DBState)
    (h : current < epoch) :
    catchupFrom o current epoch db = db :=
  catchup_noop o current epoch db h

/-- Witness for C7 at the spec's example: resume 8, current 7. -/
theorem catchup_empty_range_noop_witness :
    7 < 8 ∧ catchupFrom oracleAllOk 7 8 db0 = db0 :=
  ⟨by decide, catchup_empty_range_noop oracleAllOk 7 8 db0 (by decide)⟩

/-- C4: a fully successful run processes exactly the epochs of
`[epoch, current]`, in strictly ascending order, opening one transaction per
epoch and committing each epoch's data in its own singleton transaction
(never batching two epochs in one transaction). -/
theorem catchup_success_range (o : Oracle) (current epoch : Nat) (db : DBState)
    (hec : epoch ≤ current)
    (hok : ∀ k, epoch ≤ k → k ≤ current → stepOk o k = true) :
    catchupFrom o current epoch db =
      { latestEpoch := current, txLog := db.txLog ++ (epochRange epoch (current + 1 - epoch)).map (fun k => [k]), attempted := db.attempted ++ epochRange epoch (current + 1 - epoch), txBegun := db.txBegun + (current + 1 - epoch) }
    ∧ (∀ x, x ∈ epochRange epoch (current + 1 - epoch) ↔ (epoch ≤ x ∧ x ≤ current))
    ∧ List.Sorted (fun a b => a < b) (epochRange epoch (current + 1 - epoch))
    ∧ (epochRange epoch (current + 1 - epoch)).length = current + 1 - epoch := by
  refine ⟨?_, ?_, epochRange_sorted _ _, epochRange_length _ _⟩
  · rw [catchupFrom_all_ok o current epoch db hok]
    simp [hec]
  · intro x
    rw [mem_epochRange]
    omega

/-- Witness for C4: a concrete successful run over epochs 0..2. -/
theorem catchup_success_range_witness :
    0 ≤ 2 ∧ catchupFrom oracleAllOk 2 0 db0 =
      { latestEpoch := 2, txLog := db0.txLog ++ (epochRange 0 (2 + 1 - 0)).map (fun k => [k]), attempted := db0.attempted ++ epochRange 0 (2 + 1 - 0), txBegun := db0.txBegun + (2 + 1 - 0) } :=
  ⟨by decide, (catchup_success_range oracleAllOk 2 0 db0 (by decide) (fun k h1 h2 => rfl)).1⟩

/-- C3: if a per-epoch step after a successful `BeginTx` fails at epoch `K`
during a run from `epoch` to `current`, then epoch `K`'s transaction is
opened but aborted, exactly the epochs of `[epoch, K-1]` are committed (one
transaction each), the stored metadata is `K - 1` (the pre-run value when
`K = epoch`), no epoch after `K` is attempted, and the failure is not
propagated: the startup path still proceeds to the subscription step. -/
theorem catchup_abort_isolation (o : Oracle) (current K epoch : Nat) (db : DBState)
    (heK : epoch ≤ K) (hKc : K ≤ current)
    (hok : ∀ k, epoch ≤ k → k < K → stepOk o k = true)
    (hb : o.beginOk K = true)
    (hf : (o.updateOk K && o.setOk K && o.commitOk K) = false) :
    catchupFrom o current epoch db =
      { latestEpoch := if epoch = K then db.latestEpoch else K - 1, txLog := db.txLog ++ (epochRange epoch (K - epoch)).map (fun k => [k]), attempted := db.attempted ++ epochRange epoch (K + 1 - epoch), txBegun := db.txBegun + (K - epoch) + 1 }
    ∧ (∀ (o2 : Oracle) (s : Int) (sem : Weighted), (tryAcquire1 sem).1 = true →
        (updateAfterRestart true true o2 current s db sem).outcome = Outcome.subscribed) := by
  refine ⟨catchupSteps_fail_at o current K hb hf hKc _ epoch db rfl heK hok, ?_⟩
  intro o2 s sem hacq
  rw [updateAfterRestart_run true o2 current s db sem hacq]
  rfl

/-- Witness for C3 at the spec's example: resume 3, current 10, induced
failure of the committee write at K = 6; epochs 3..5 are committed,
metadata is 5, epochs 7..10 are never attempted. -/
theorem catchup_abort_isolation_witness :
    catchupFrom oracleFailUpdate6 10 3 db0 =
      { latestEpoch := if 3 = 6 then db0.latestEpoch else 6 - 1, txLog := db0.txLog ++ (epochRange 3 (6 - 3)).map (fun k => [k]), attempted := db0.attempted ++ epochRange 3 (6 + 1 - 3), txBegun := db0.txBegun + (6 - 3) + 1 } :=
  (catchup_abort_isolation oracleFailUpdate6 10 6 3 db0 (by decide) (by decide)
    (fun k h1 h2 => by simp [stepOk, oracleFailUpdate6, oracleAllOk]; omega)
    (by decide) (by decide)).1

/-- C1: each loop iteration either commits nothing and holds the metadata,
or commits the epoch's committee data and the metadata update
`latestEpoch := epoch` in the same transaction; consequently, after any
prefix of the loop the transactions committed in that prefix are one
singleton per consecutive epoch from the resume point, and the stored
metadata equals the highest epoch committed in the prefix (the pre-run
value when the prefix committed nothing) — never ahead of committed data
and never behind it. -/
theorem catchup_prefix_metadata_consistent (o : Oracle) (current n epoch : Nat)
    (db db2 : DBState) (hdb2 : db2 = catchupSteps o current n epoch db) :
    db2.txLog = db.txLog ++ newTxs db db2
    ∧ newTxs db db2 = (epochRange epoch (newTxs db db2).length).map (fun k => [k])
    ∧ ((newTxs db db2).length = 0 → db2.latestEpoch = db.latestEpoch)
    ∧ (0 < (newTxs db db2).length → db2.latestEpoch = epoch + (newTxs db db2).length - 1)
    ∧ ((newTxs db db2).flatten.all (fun x => decide (x ≤ db2.latestEpoch)) = true)
    ∧ (∀ (k : Nat) (dbx : DBState),
        ((runIter o k dbx).2.latestEpoch = dbx.latestEpoch ∧ (runIter o k dbx).2.txLog = dbx.txLog)
        ∨ ((runIter o k dbx).2.latestEpoch = k ∧ (runIter o k dbx).2.txLog = dbx.txLog ++ [[k]])) := by
  obtain ⟨m, h1, h2⟩ := catchupSteps_prefix_spec o current n epoch db
  rw [← hdb2] at h1 h2
  have hnew : newTxs db db2 = (epochRange epoch m).map (fun k => [k]) := newTxs_eq db db2 _ h1
  have hlen : (newTxs db db2).length = m := by rw [hnew]; simp [epochRange_length]
  refine ⟨?_, ?_, ?_, ?_, ?_, ?_⟩
  · rw [hnew]; exact h1
  · rw [hlen]; exact hnew
  · intro h0
    rw [hlen] at h0
    rcases h2 with ⟨_, hl⟩ | ⟨hm, _⟩
    · exact hl
    · omega
  · intro h0
    rw [hlen] at h0
    rcases h2 with ⟨hm, _⟩ | ⟨_, hl⟩
    · omega
    · rw [hlen]; exact hl
  · rcases h2 with ⟨hm, hl⟩ | ⟨hm, hl⟩
    · subst hm
      rw [hnew]
      simp [epochRange]
    · rw [hnew, flatten_map_singleton, List.all_eq_true]
      intro x hx
      have := (mem_epochRange x epoch m).mp hx
      simp only [decide_eq_true_eq]
      omega
  · intro k dbx
    cases hstep : stepOk o k with
    | false =>
      rw [runIter_fail o k dbx hstep]
      exact Or.inl ⟨rfl, rfl⟩
    | true =>
      rw [runIter_ok o k dbx hstep]
      exact Or.inr ⟨rfl, rfl⟩

/-- Witness for C1: after the two-iteration prefix of a run starting at
epoch 0, the stored metadata equals the last committed epoch. -/
theorem catchup_prefix_metadata_consistent_witness :
    (catchupSteps oracleAllOk 2 2 0 db0).latestEpoch
      = 0 + (newTxs db0 (catchupSteps oracleAllOk 2 2 0 db0)).length - 1 :=
  (catchup_prefix_metadata_consistent oracleAllOk 2 2 0 db0 _ rfl).2.2.2.1 (by decide)

/-- C6: the guard is a weight-1 semaphore created free; a non-blocking
`TryAcquire(1)` is admitted exactly when no holder is active and never
exceeds one holder; `updateAfterRestart` hands the semaphore back on every
path (in particular the permit is released after the catch-up run on every
outcome of that run); a denied acquisition only drops the trigger — the
run returns with the state untouched and no error outcome. -/
theorem single_flight_guard (mdOk subOk : Bool) (o : Oracle) (current : Nat) (s : Int)
    (db : DBState) (sem : Weighted) (hsz : sem.size = 1) (hcur : sem.cur ≤ 1) :
    newWeighted1 = ⟨1, 0⟩
    ∧ ((tryAcquire1 sem).1 = true ↔ sem.cur = 0)
    ∧ (tryAcquire1 sem).2.cur ≤ 1
    ∧ (updateAfterRestart mdOk subOk o current s db sem).sem = sem
    ∧ ((tryAcquire1 sem).1 = false → mdOk = true →
        updateAfterRestart mdOk subOk o current s db sem = ⟨Outcome.catchupDeferred, db, sem⟩) := by
  refine ⟨rfl, ?_, ?_, updateAfterRestart_sem mdOk subOk o current s db sem, ?_⟩
  · unfold tryAcquire1
    by_cases hc : sem.cur + 1 ≤ sem.size <;> simp [hc] <;> omega
  · unfold tryAcquire1
    by_cases hc : sem.cur + 1 ≤ sem.size <;> simp [hc] <;> omega
  · intro hd hm
    subst hm
    simp [updateAfterRestart, hd, tryAcquire1_denied sem hd]

/-- Witness for C6: a held weight-1 semaphore denies the next acquisition
and the startup path drops the trigger with everything unchanged. -/
theorem single_flight_guard_witness :
    (sem11.size = 1 ∧ sem11.cur ≤ 1)
    ∧ updateAfterRestart true true oracleAllOk 0 0 db0 sem11 = ⟨Outcome.catchupDeferred, db0, sem11⟩ :=
  ⟨⟨by decide, by decide⟩,
    (single_flight_guard true true oracleAllOk 0 0 db0 sem11 (by decide) (by decide)).2.2.2.2
      (by decide) rfl⟩

/-- C8: the startup sequence ends fatally in exactly two cases — the
initial Progress Metadata read failing (in which case nothing has run:
state and semaphore are untouched) or, after an admitted catch-up run, the
head-change subscription failing. -/
theorem startup_fatal_cases (mdOk subOk : Bool) (o : Oracle) (current : Nat) (s : Int)
    (db : DBState) (sem : Weighted) (r : RunResult)
    (hr : r = updateAfterRestart mdOk subOk o current s db sem) :
    ((r.outcome = Outcome.fatalMetadata ∨ r.outcome = Outcome.fatalSubscribe)
      ↔ (mdOk = false ∨ ((tryAcquire1 sem).1 = true ∧ subOk = false)))
    ∧ (r.outcome = Outcome.fatalMetadata ↔ mdOk = false)
    ∧ (mdOk = false → r.db = db ∧ r.sem = sem) := by
  subst hr
  cases mdOk <;> cases subOk <;> cases hacq : (tryAcquire1 sem).1 <;>
    simp [updateAfterRestart, hacq]

/-- Witness for C8: a failed metadata read aborts before any state change. -/
theorem startup_fatal_cases_witness :
    (updateAfterRestart false true oracleAllOk 0 0 db0 sem10).db = db0
    ∧ (updateAfterRestart false true oracleAllOk 0 0 db0 sem10).sem = sem10 :=
  (startup_fatal_cases false true oracleAllOk 0 0 db0 sem10 _ rfl).2.2 rfl

/-- C10: when the guard is denied during startup, `updateAfterRestart`
returns at once: the head-change subscription is never established
(the outcome is `catchupDeferred`, not `subscribed`), and no catch-up work
is triggered (no transactions are committed, the state is untouched). -/
theorem deferred_skips_subscription (subOk : Bool) (o : Oracle) (current : Nat) (s : Int)
    (db : DBState) (sem : Weighted) (hd : (tryAcquire1 sem).1 = false) :
    updateAfterRestart true subOk o current s db sem = ⟨Outcome.catchupDeferred, db, sem⟩
    ∧ (updateAfterRestart true subOk o current s db sem).outcome ≠ Outcome.subscribed
    ∧ newTxs db (updateAfterRestart true subOk o current s db sem).db = [] := by
  have h1 : updateAfterRestart true subOk o current s db sem = ⟨Outcome.catchupDeferred, db, sem⟩ := by
    simp [updateAfterRestart, hd, tryAcquire1_denied sem hd]
  refine ⟨h1, by rw [h1]; simp, by rw [h1]; exact newTxs_self db⟩

/-- Witness for C10: with the permit held, startup defers and does not
subscribe. -/
theorem deferred_skips_subscription_witness :
    (tryAcquire1 sem11).1 = false
    ∧ updateAfterRestart true true oracleAllOk 5 (-1) db0 sem11 = ⟨Outcome.catchupDeferred, db0, sem11⟩ :=
  ⟨by decide, (deferred_skips_subscription true oracleAllOk 5 (-1) db0 sem11 (by decide)).1⟩

/-- C5: for a successful admitted run (any `startEpoch`, override included),
given the run-reachability invariant that the stored metadata does not
exceed the chain's current epoch, the stored metadata never decreases, every
epoch committed during the run is at most the final metadata, and when the
run committed anything the final metadata is itself a committed epoch and
equals `current` — i.e. the highest epoch committed during the run. -/
theorem catchup_monotonic_progress (subOk : Bool) (o : Oracle) (current : Nat) (s : Int)
    (db : DBState) (sem : Weighted) (r : RunResult)
    (hacq : (tryAcquire1 sem).1 = true)
    (hok : ∀ k, stepOk o k = true)
    (hmc : db.latestEpoch ≤ current)
    (hr : r = updateAfterRestart true subOk o current s db sem) :
    db.latestEpoch ≤ r.db.latestEpoch
    ∧ ((newTxs db r.db).flatten.all (fun x => decide (x ≤ r.db.latestEpoch)) = true)
    ∧ (newTxs db r.db ≠ [] →
        (r.db.latestEpoch ∈ (newTxs db r.db).flatten ∧ r.db.latestEpoch = current)) := by
  rw [updateAfterRestart_run subOk o current s db sem hacq] at hr
  have hrdb : r.db = catchupFrom o current (resumeMetadata s (getMetadata db)).LatestEpoch db := by
    rw [hr]
  by_cases hrp : (resumeMetadata s (getMetadata db)).LatestEpoch ≤ current
  · rw [catchupFrom_all_ok o current _ db (fun k h1 h2 => hok k)] at hrdb
    have hlat : r.db.latestEpoch = current := by rw [hrdb]; simp [hrp]
    have htx : r.db.txLog = db.txLog ++
        (epochRange (resumeMetadata s (getMetadata db)).LatestEpoch
          (current + 1 - (resumeMetadata s (getMetadata db)).LatestEpoch)).map (fun k => [k]) := by
      rw [hrdb]
    have hnew := newTxs_eq db r.db _ htx
    refine ⟨by omega, ?_, ?_⟩
    · rw [hnew, flatten_map_singleton, List.all_eq_true]
      intro x hx
      have := (mem_epochRange x _ _).mp hx
      simp only [decide_eq_true_eq]
      omega
    · intro _
      refine ⟨?_, hlat⟩
      rw [hnew, flatten_map_singleton, hlat, mem_epochRange]
      omega
  · have hnoop : r.db = db := by
      rw [hrdb]
      exact catchup_noop o current _ db (by omega)
    rw [hnoop, newTxs_self]
    exact ⟨le_rfl, by simp, fun hne => absurd rfl hne⟩

/-- Witness for C5: a concrete successful run from a fresh state up to
epoch 2 only advances the stored metadata. -/
theorem catchup_monotonic_progress_witness :
    db0.latestEpoch ≤ (updateAfterRestart true true oracleAllOk 2 (-1) db0 sem10).db.latestEpoch :=
  (catchup_monotonic_progress true oracleAllOk 2 (-1) db0 sem10 _
    (by decide) (fun k => rfl) (by decide) rfl).1

/-- C9 counterexample: with the chain at current epoch 0, a first
startup-plus-catch-up pass (no override) succeeds and commits every epoch
up to the current epoch (epoch 0 alone, transaction log `[[0]]`), yet the
second pass with no override opens a transaction again (`txBegun` becomes 2)
and writes epoch 0's data a second time (transaction log `[[0], [0]]`),
because the stored `latestEpoch = 0` resumes at 0, not at 1. -/
theorem rerun_idempotent_cex :
    (updateAfterRestart true true oracleAllOk 0 (-1) db0 sem10).outcome = Outcome.subscribed
    ∧ (updateAfterRestart true true oracleAllOk 0 (-1) db0 sem10).db.txLog = [[0]]
    ∧ (updateAfterRestart true true oracleAllOk 0 (-1) db0 sem10).db.latestEpoch = 0
    ∧ (updateAfterRestart true true oracleAllOk 0 (-1)
        (updateAfterRestart true true oracleAllOk 0 (-1) db0 sem10).db
        (updateAfterRestart true true oracleAllOk 0 (-1) db0 sem10).sem).db.txBegun = 2
    ∧ (updateAfterRestart true true oracleAllOk 0 (-1)
        (updateAfterRestart true true oracleAllOk 0 (-1) db0 sem10).db
        (updateAfterRestart true true oracleAllOk 0 (-1) db0 sem10).sem).db.txLog = [[0], [0]] := by
  decide

/-- C9 (amended): after a successful first pass that committed every epoch
up to the chain's current epoch, and provided the current epoch is at least
1 (so the stored metadata is positive and the genesis rule does not apply),
a second startup-plus-catch-up pass with no override processes an empty
range: its state equals the first pass's state (no transaction opened, no
epoch's data written a second time) and it still subscribes. -/
theorem rerun_idempotent_amended (o : Oracle) (current : Nat) (s1 : Int)
    (db : DBState) (sem : Weighted) (r1 r2 : RunResult)
    (hacq : (tryAcquire1 sem).1 = true)
    (hok : ∀ k, stepOk o k = true)
    (hc : 1 ≤ current)
    (hresume : (resumeMetadata s1 (getMetadata db)).LatestEpoch ≤ current)
    (h1 : r1 = updateAfterRestart true true o current s1 db sem)
    (h2 : r2 = updateAfterRestart true true o current (-1) r1.db r1.sem) :
    r1.db.latestEpoch = current
    ∧ r2.db = r1.db
    ∧ r2.outcome = Outcome.subscribed
    ∧ newTxs r1.db r2.db = [] := by
  rw [updateAfterRestart_run true o current s1 db sem hacq] at h1
  have hdb1 : r1.db = catchupFrom o current (resumeMetadata s1 (getMetadata db)).LatestEpoch db := by
    rw [h1]
  have hlat : r1.db.latestEpoch = current := by
    rw [hdb1, catchupFrom_all_ok o current _ db (fun k ha hb => hok k)]
    simp [hresume]
  have hsem1 : r1.sem = sem := by
    rw [h1]
    exact release_after_acquire sem hacq
  rw [updateAfterRestart_run true o current (-1) r1.db r1.sem (by rw [hsem1]; exact hacq)] at h2
  have hrp2 : (resumeMetadata (-1) (getMetadata r1.db)).LatestEpoch = current + 1 := by
    unfold resumeMetadata getMetadata
    have hneg : ¬ ((0 : Int) ≤ -1) := by omega
    have hpos : 0 < r1.db.latestEpoch := by omega
    have hposc : 0 < current := by omega
    simp [hneg, hpos, hlat, hposc]
  have hdb2 : r2.db = r1.db := by
    rw [h2]
    show catchupFrom o current (resumeMetadata (-1) (getMetadata r1.db)).LatestEpoch r1.db = r1.db
    rw [hrp2]
    exact catchup_noop o current (current + 1) r1.db (by omega)
  refine ⟨hlat, hdb2, ?_, by rw [hdb2]; exact newTxs_self r1.db⟩
  rw [h2]
  rfl

/-- Witness for C9 (amended): with the chain at current epoch 1, the second
pass after a full first pass changes nothing. -/
theorem rerun_idempotent_amended_witness :
    (updateAfterRestart true true oracleAllOk 1 (-1)
        (updateAfterRestart true true oracleAllOk 1 (-1) db0 sem10).db
        (updateAfterRestart true true oracleAllOk 1 (-1) db0 sem10).sem).db
      = (updateAfterRestart true true oracleAllOk 1 (-1) db0 sem10).db :=
  (rerun_idempotent_amended oracleAllOk 1 (-1) db0 sem10 _ _
    (by decide) (fun k => rfl) (by decide) (by decide) rfl rfl).2.1

end Chaind.BeaconCommittees
